import Mathlib

/-!
Verification of the promise-concurrent-executor library.

The development shallowly embeds src/promise-concurrent-executor.ts.

Functional layer: the executor instance state (concurrency, options, queue,
runningCount, isRunning) is a structure, and each public method is a pure
function on it.  A queued task is modelled by the wall-clock instant at which
it settles once run, together with its outcome (fulfilled value or rejection
reason); Promise.all and Promise.allSettled are embedded by their contracts:
Promise.all rejects with the reason of the earliest-settling rejection and
otherwise fulfills with the values in positional order, Promise.allSettled
maps every task to a tagged outcome in positional order.

Gate layer: the admission gate (the wait / execute pair plus the init reset
performed in the finally block of executeAll and executeAllSettled) is a
small-step transition system over the runningCount and the per-task phases.
Each setInterval callback body is synchronous JavaScript, hence one atomic
step: the poll step both checks runningCount < concurrency and increments
runningCount.  The finish step is the decrement in the finally block of the
execute wrapper; the teardown step is the init call in the finally block of
the aggregation entry points, which resets runningCount to 0 and can fire,
after a fail-fast rejection, while sibling tasks are still draining.
-/

namespace PCE

/-- Which aggregation entry point an auto-execute configuration triggers. -/
inductive RunType : Type
  | all
  | allSettled
deriving DecidableEq, Repr

/-- The autoExecute member of PromiseConcurrentExecutorOption. -/
structure AutoExecuteOption : Type where
  type : RunType
  triggerThreshold : Int
deriving DecidableEq, Repr

/-- PromiseConcurrentExecutorOption: an optional poll interval and an optional
auto-execute configuration. -/
structure ExecutorOption : Type where
  interval : Option Nat := none
  autoExecute : Option AutoExecuteOption := none
deriving DecidableEq, Repr

/-- A queued task, modelled by the wall-clock time at which it settles once it
has run, and its outcome: ok value (fulfilled) or error reason (rejected). -/
structure TaskSpec (α ρ : Type) : Type where
  time : Nat
  outcome : Except ρ α

/-- The mutable fields of a PromiseConcurrentExecutor instance. -/
structure ExecutorState (α ρ : Type) : Type where
  concurrency : Int
  options : ExecutorOption
  queue : List (TaskSpec α ρ)
  runningCount : Int
  isRunning : Bool

/-- Message of the error thrown by add while a run is in progress. -/
def invalidStateMessage : String :=
  "Cannot add any processes while execution is in progress."

/-- Message of the error thrown by executeAll and executeAllSettled while a
run is in progress. -/
def alreadyRunningMessage : String :=
  "Execution is already in progress."

/-- A failure surfaced by an aggregation entry point: either the synchronous
state-guard error, or the rejection reason forwarded from a task. -/
inductive RunFailure (ρ : Type) : Type
  | state (message : String)
  | task (reason : ρ)
deriving DecidableEq, Repr

/-- Constructor: this.concurrency = concurrency || 1 (a falsy numeric
argument, that is 0, or an omitted one, is coerced to the default 1);
this.options = options || \x7b\x7d; then init(). -/
def mkExecutor {α ρ : Type} (c : Option Int) (opts : Option ExecutorOption) :
    ExecutorState α ρ where
  concurrency := match c with
    | none => 1
    | some n => if n = 0 then 1 else n
  options := opts.getD {}
  queue := []
  runningCount := 0
  isRunning := false

/-- getConcurrency returns the concurrency field. -/
def getConcurrency {α ρ : Type} (s : ExecutorState α ρ) : Int :=
  s.concurrency

/-- setConcurrency overwrites the concurrency field, with no validation. -/
def setConcurrency {α ρ : Type} (s : ExecutorState α ρ) (n : Int) :
    ExecutorState α ρ :=
  { s with concurrency := n }

/-- size returns the queue length. -/
def size {α ρ : Type} (s : ExecutorState α ρ) : Nat :=
  s.queue.length

/-- init: clear the queue, reset the running flag and the running count. -/
def init {α ρ : Type} (s : ExecutorState α ρ) : ExecutorState α ρ :=
  { s with queue := [], isRunning := false, runningCount := 0 }

/-- add: throw the invalid-state error while a run is in progress, otherwise
append the task to the queue. -/
def add {α ρ : Type} (s : ExecutorState α ρ) (t : TaskSpec α ρ) :
    Except String (ExecutorState α ρ) :=
  if s.isRunning then .error invalidStateMessage
  else .ok { s with queue := s.queue ++ [t] }

/-- addAll: add each task in order; the loop stops at the first thrown
error. -/
def addAll {α ρ : Type} (s : ExecutorState α ρ) (ts : List (TaskSpec α ρ)) :
    Except String (ExecutorState α ρ) :=
  List.foldlM add s ts

/-- One fold step of the first-rejection scan: keep the rejection settling
earliest in wall-clock time (on a tie, the one already held, which was mapped
earlier). -/
def rejectionMin {α ρ : Type} (acc : Option (Nat × ρ)) (t : TaskSpec α ρ) :
    Option (Nat × ρ) :=
  match t.outcome with
  | .ok _ => acc
  | .error r =>
    match acc with
    | none => some (t.time, r)
    | some pr => if t.time < pr.1 then some (t.time, r) else pr

/-- The rejection that settles first in wall-clock time among the tasks, if
any task rejects. -/
def firstRejection {α ρ : Type} (ts : List (TaskSpec α ρ)) :
    Option (Nat × ρ) :=
  List.foldl rejectionMin none ts

/-- Promise.all contract: reject with the reason of the earliest-settling
rejection; if no task rejects, fulfill with the values in positional order. -/
def promiseAll {α ρ : Type} (ts : List (TaskSpec α ρ)) : Except ρ (List α) :=
  match firstRejection ts with
  | some pr => .error pr.2
  | none => .ok (ts.filterMap fun t => t.outcome.toOption)

/-- A PromiseSettledResult: fulfilled with a value or rejected with a
reason. -/
inductive SettledResult (α ρ : Type) : Type
  | fulfilled (value : α)
  | rejected (reason : ρ)
deriving DecidableEq, Repr

/-- The tagged outcome of one task. -/
def settleTask {α ρ : Type} (t : TaskSpec α ρ) : SettledResult α ρ :=
  match t.outcome with
  | .ok v => .fulfilled v
  | .error r => .rejected r

/-- Promise.allSettled contract: one tagged outcome per task, in positional
order. -/
def promiseAllSettled {α ρ : Type} (ts : List (TaskSpec α ρ)) :
    List (SettledResult α ρ) :=
  ts.map settleTask

/-- executeAllSettled: throw the already-running error if a run is in
progress; otherwise run every queued task and resolve with the tagged
outcomes, the finally block resetting the state via init. -/
def executeAllSettled {α ρ : Type} (s : ExecutorState α ρ) :
    Except (RunFailure ρ) (List (SettledResult α ρ)) × ExecutorState α ρ :=
  if s.isRunning then (.error (.state alreadyRunningMessage), s)
  else (.ok (promiseAllSettled s.queue), init s)

/-- executeAll: throw the already-running error if a run is in progress;
otherwise run every queued task under the Promise.all contract, the finally
block resetting the state via init on both the fulfill and the reject
path. -/
def executeAll {α ρ : Type} (s : ExecutorState α ρ) :
    Except (RunFailure ρ) (List α) × ExecutorState α ρ :=
  if s.isRunning then (.error (.state alreadyRunningMessage), s)
  else
    match promiseAll s.queue with
    | .error r => (.error (.task r), init s)
    | .ok vs => (.ok vs, init s)

/-- The auto-execute configuration in effect inside addWithAutoExecute:
options?.autoExecute || this.options.autoExecute. -/
def effectiveAuto {α ρ : Type} (opts : Option ExecutorOption)
    (s : ExecutorState α ρ) : Option AutoExecuteOption :=
  match opts with
  | some o =>
    match o.autoExecute with
    | some a => some a
    | none => s.options.autoExecute
  | none => s.options.autoExecute

/-- addWithAutoExecute: push the task onto the queue with no running-state
check, then, if an auto-execute configuration is in effect and its threshold
is at most the new queue length, invoke the configured entry point and await
it, forwarding its failure and discarding its result. -/
def addWithAutoExecute {α ρ : Type} (s : ExecutorState α ρ)
    (t : TaskSpec α ρ) (opts : Option ExecutorOption) :
    Except (RunFailure ρ) Unit × ExecutorState α ρ :=
  let s1 : ExecutorState α ρ := { s with queue := s.queue ++ [t] }
  match effectiveAuto opts s with
  | none => (.ok (), s1)
  | some a =>
    if a.triggerThreshold ≤ (s1.queue.length : Int) then
      match a.type with
      | .all =>
        let pr := executeAll s1
        (pr.1.map fun _ => (), pr.2)
      | .allSettled =>
        let pr := executeAllSettled s1
        (pr.1.map fun _ => (), pr.2)
    else (.ok (), s1)

/-- Phase of one mapped task with respect to the admission gate: pending
(still polling inside wait), active (admitted, its function running), or
settled (its finally block has decremented the running count). -/
inductive TaskPhase : Type
  | pending
  | active
  | settled
deriving DecidableEq, Repr

/-- Gate-level state of one run: the concurrency limit, the runningCount
field, the phase of each mapped task (listed in queue order), and whether the
init call in the finally block of the aggregation entry point has already
fired. -/
structure GateState : Type where
  limit : Int
  running : Int
  phases : List TaskPhase
  tornDown : Bool
deriving DecidableEq, Repr

/-- Number of tasks whose function is currently executing. -/
def activeCount : List TaskPhase → Nat
  | [] => 0
  | p :: rest => (if p = .active then 1 else 0) + activeCount rest

/-- One atomic event-loop step of a run.  poll is one setInterval callback
that finds runningCount < concurrency: its body is synchronous, so the check
and the increment happen in the same step.  finish is the decrement in the
finally block of the execute wrapper when a task settles.  teardown is the
init call in the finally block of the aggregation entry point; after a
fail-fast rejection it can fire while other tasks are still pending or
active, and it resets runningCount to 0.  No step removes a pending poller or
an active task: nothing is cancelled. -/
inductive GateStep : GateState → GateState → Prop
  | poll (s : GateState) (i : Nat) :
      s.phases.get? i = some .pending →
      s.running < s.limit →
      GateStep s { s with phases := s.phases.set i .active,
                          running := s.running + 1 }
  | finish (s : GateState) (i : Nat) :
      s.phases.get? i = some .active →
      GateStep s { s with phases := s.phases.set i .settled,
                          running := s.running - 1 }
  | teardown (s : GateState) :
      s.tornDown = false →
      (∃ j, s.phases.get? j = some .settled) →
      GateStep s { s with running := 0, tornDown := true }

/-- Gate state at the start of a run with limit N and M mapped tasks. -/
def initGate (N : Int) (M : Nat) : GateState :=
  { limit := N, running := 0, phases := List.replicate M .pending,
    tornDown := false }

/-- States reachable during or after a run with limit N and M tasks. -/
def GateReach (N : Int) (M : Nat) (s : GateState) : Prop :=
  Relation.ReflTransGen GateStep (initGate N M) s

theorem activeCount_set_active (l : List TaskPhase) (i : Nat)
    (h : l.get? i = some .pending) :
    activeCount (l.set i .active) = activeCount l + 1 := by
  induction l generalizing i with
  | nil => simp [List.get?] at h
  | cons p rest ih =>
    cases i with
    | zero =>
      have hp : p = .pending := by simpa [List.get?] using h
      subst hp
      simp [activeCount]
      omega
    | succ j =>
      have h2 : rest.get? j = some .pending := h
      simp [activeCount, ih j h2]
      omega

theorem activeCount_set_settled (l : List TaskPhase) (i : Nat)
    (h : l.get? i = some .active) :
    activeCount (l.set i .settled) + 1 = activeCount l := by
  induction l generalizing i with
  | nil => simp [List.get?] at h
  | cons p rest ih =>
    cases i with
    | zero =>
      have hp : p = .active := by simpa [List.get?] using h
      subst hp
      simp [activeCount]
      omega
    | succ j =>
      have h2 : rest.get? j = some .active := h
      have h3 := ih j h2
      simp [activeCount]
      omega

theorem activeCount_replicate_pending (M : Nat) :
    activeCount (List.replicate M .pending) = 0 := by
  induction M with
  | zero => rfl
  | succ m ih => simpa [List.replicate, activeCount] using ih

/-- Inductive invariant of the gate: the limit never changes, and until the
teardown the runningCount equals the number of active tasks and stays at most
the limit. -/
def GateInv (N : Int) (s : GateState) : Prop :=
  s.limit = N ∧
  (s.tornDown = false →
    s.running = (activeCount s.phases : Int) ∧ s.running ≤ N)

theorem gateInv_init (N : Int) (M : Nat) (hN : 0 ≤ N) :
    GateInv N (initGate N M) := by
  refine ⟨rfl, fun _ => ⟨?_, ?_⟩⟩
  · simp [initGate, activeCount_replicate_pending]
  · simpa [initGate] using hN

theorem gateInv_step (N : Int) (s t : GateState) (hinv : GateInv N s)
    (hstep : GateStep s t) : GateInv N t := by
  obtain ⟨hlim, hrun⟩ := hinv
  cases hstep with
  | poll i hp hlt =>
    refine ⟨hlim, fun htd => ?_⟩
    obtain ⟨heq, hle⟩ := hrun htd
    have hc := activeCount_set_active s.phases i hp
    have hltN : s.running < N := hlim ▸ hlt
    constructor
    · show s.running + 1 = (activeCount (s.phases.set i .active) : Int)
      rw [hc]
      omega
    · show s.running + 1 ≤ N
      omega
  | finish i ha =>
    refine ⟨hlim, fun htd => ?_⟩
    obtain ⟨heq, hle⟩ := hrun htd
    have hc := activeCount_set_settled s.phases i ha
    constructor
    · show s.running - 1 = (activeCount (s.phases.set i .settled) : Int)
      omega
    · show s.running - 1 ≤ N
      omega
  | teardown htd hex =>
    refine ⟨hlim, fun habs => ?_⟩
    simp at habs

theorem gateInv_reach (N : Int) (M : Nat) (s : GateState) (hN : 0 ≤ N)
    (h : GateReach N M s) : GateInv N s := by
  induction h with
  | refl => exact gateInv_init N M hN
  | tail hr hstep ih => exact gateInv_step N _ _ ih hstep

theorem foldl_rejectionMin_allOk {α ρ : Type} (ts : List (TaskSpec α ρ))
    (h : ∀ t ∈ ts, ∃ v, t.outcome = .ok v) :
    List.foldl rejectionMin none ts = none := by
  induction ts with
  | nil => rfl
  | cons t rest ih =>
    obtain ⟨v, hv⟩ := h t (by simp)
    have hstep : rejectionMin none t = none := by simp [rejectionMin, hv]
    calc List.foldl rejectionMin none (t :: rest)
        = List.foldl rejectionMin (rejectionMin none t) rest := rfl
      _ = List.foldl rejectionMin none rest := by rw [hstep]
      _ = none := ih fun t2 ht2 => h t2 (by simp [ht2])

theorem rejectionMin_some {α ρ : Type} (pr : Nat × ρ) (t : TaskSpec α ρ) :
    ∃ qr, rejectionMin (some pr) t = some qr ∧ qr.1 ≤ pr.1 ∧
      (qr = pr ∨ (t.time = qr.1 ∧ t.outcome = .error qr.2)) ∧
      (∀ r2, t.outcome = .error r2 → qr.1 ≤ t.time) := by
  cases hto : t.outcome with
  | ok v =>
    refine ⟨pr, by simp [rejectionMin, hto], le_refl _, Or.inl rfl, ?_⟩
    intro r2 h2
    simp at h2
  | error r =>
    by_cases hlt : t.time < pr.1
    · refine ⟨(t.time, r), by simp [rejectionMin, hto, hlt], by omega,
        Or.inr ⟨rfl, rfl⟩, ?_⟩
      intro r2 _
      exact le_refl _
    · refine ⟨pr, by simp [rejectionMin, hto, hlt], le_refl _, Or.inl rfl, ?_⟩
      intro r2 _
      omega

theorem foldl_rejectionMin_spec {α ρ : Type} (ts : List (TaskSpec α ρ)) :
    ∀ pr : Nat × ρ,
      ∃ qr, List.foldl rejectionMin (some pr) ts = some qr ∧ qr.1 ≤ pr.1 ∧
        (qr = pr ∨ ∃ t ∈ ts, t.time = qr.1 ∧ t.outcome = .error qr.2) ∧
        (∀ t ∈ ts, ∀ r2, t.outcome = .error r2 → qr.1 ≤ t.time) := by
  induction ts with
  | nil =>
    intro pr
    exact ⟨pr, rfl, le_refl _, Or.inl rfl, by simp⟩
  | cons t rest ih =>
    intro pr
    obtain ⟨pr1, hstep, hle1, hmem1, hmin1⟩ := rejectionMin_some pr t
    obtain ⟨qr, hfold, hle, hmem, hmin⟩ := ih pr1
    refine ⟨qr, ?_, le_trans hle hle1, ?_, ?_⟩
    · calc List.foldl rejectionMin (some pr) (t :: rest)
          = List.foldl rejectionMin (rejectionMin (some pr) t) rest := rfl
        _ = some qr := by rw [hstep]; exact hfold
    · rcases hmem with hq | ⟨t2, ht2, hq1, hq2⟩
      · subst hq
        rcases hmem1 with hq | ⟨hq1, hq2⟩
        · exact Or.inl hq
        · exact Or.inr ⟨t, by simp, hq1, hq2⟩
      · exact Or.inr ⟨t2, by simp [ht2], hq1, hq2⟩
    · intro t2 ht2 r2 hr2
      rcases List.mem_cons.1 ht2 with heq | h2
      · subst heq
        exact le_trans hle (hmin1 r2 hr2)
      · exact hmin t2 h2 r2 hr2

theorem firstRejection_spec {α ρ : Type} (ts : List (TaskSpec α ρ))
    (hex : ∃ t ∈ ts, ∃ r, t.outcome = .error r) :
    ∃ tm r, firstRejection ts = some (tm, r) ∧
      (∃ t ∈ ts, t.time = tm ∧ t.outcome = .error r) ∧
      (∀ t ∈ ts, ∀ r2, t.outcome = .error r2 → tm ≤ t.time) := by
  induction ts with
  | nil => simp at hex
  | cons t rest ih =>
    cases hto : t.outcome with
    | error r =>
      have h1 : rejectionMin none t = some (t.time, r) := by
        simp [rejectionMin, hto]
      obtain ⟨qr, hfold, hle, hmem, hmin⟩ :=
        foldl_rejectionMin_spec rest (t.time, r)
      refine ⟨qr.1, qr.2, ?_, ?_, ?_⟩
      · calc firstRejection (t :: rest)
            = List.foldl rejectionMin (rejectionMin none t) rest := rfl
          _ = some (qr.1, qr.2) := by rw [h1]; simpa using hfold
      · rcases hmem with hq | ⟨t2, ht2, hq1, hq2⟩
        · exact ⟨t, by simp, by rw [hq], by rw [hq]; exact hto⟩
        · exact ⟨t2, by simp [ht2], hq1, hq2⟩
      · intro t2 ht2 r2 hr2
        rcases List.mem_cons.1 ht2 with heq | h2
        · subst heq
          exact hle
        · exact hmin t2 h2 r2 hr2
    | ok v =>
      have hex2 : ∃ t2 ∈ rest, ∃ r, t2.outcome = .error r := by
        rcases hex with ⟨t2, ht2, r, hr⟩
        rcases List.mem_cons.1 ht2 with heq | h2
        · rw [heq, hto] at hr
          cases hr
        · exact ⟨t2, h2, r, hr⟩
      obtain ⟨tm, r, hfold, hmem, hmin⟩ := ih hex2
      have h1 : rejectionMin none t = none := by simp [rejectionMin, hto]
      refine ⟨tm, r, ?_, ?_, ?_⟩
      · calc firstRejection (t :: rest)
            = List.foldl rejectionMin (rejectionMin none t) rest := rfl
          _ = some (tm, r) := by rw [h1]; exact hfold
      · rcases hmem with ⟨t2, ht2, hq1, hq2⟩
        exact ⟨t2, by simp [ht2], hq1, hq2⟩
      · intro t2 ht2 r2 hr2
        rcases List.mem_cons.1 ht2 with heq | h2
        · rw [heq, hto] at hr2
          cases hr2
        · exact hmin t2 h2 r2 hr2

theorem filterMap_toOption_spec {α ρ : Type} (ts : List (TaskSpec α ρ))
    (h : ∀ t ∈ ts, ∃ v, t.outcome = .ok v) :
    (ts.filterMap fun t => t.outcome.toOption).length = ts.length ∧
    ∀ i t0 v, ts.get? i = some t0 → t0.outcome = .ok v →
      (ts.filterMap fun t => t.outcome.toOption).get? i = some v := by
  induction ts with
  | nil => simp
  | cons t rest ih =>
    obtain ⟨v0, hv0⟩ := h t (by simp)
    obtain ⟨ihlen, ihget⟩ := ih fun t2 ht2 => h t2 (by simp [ht2])
    have hcons : ((t :: rest).filterMap fun t => t.outcome.toOption)
        = v0 :: rest.filterMap fun t => t.outcome.toOption := by
      simp [List.filterMap_cons, hv0, Except.toOption]
    refine ⟨by simp [hcons, ihlen], ?_⟩
    intro i t0 v hget hok
    cases i with
    | zero =>
      have ht0 : t = t0 := by simpa [List.get?] using hget
      subst ht0
      rw [hv0] at hok
      injection hok with hveq
      subst hveq
      simp [hcons, List.get?]
    | succ j =>
      have hget2 : rest.get? j = some t0 := hget
      rw [hcons]
      exact ihget j t0 v hget2 hok

/-- C9: constructing an executor with a concurrency argument of 0 (the falsy
numeric value), or omitting the argument, yields a concurrency limit of 1:
getConcurrency returns 1, because the constructor coerces a falsy concurrency
argument to the default 1. -/
theorem c9_constructor_default (α ρ : Type) (opts : Option ExecutorOption) :
    getConcurrency (mkExecutor (α := α) (ρ := ρ) (some 0) opts) = 1 ∧
    getConcurrency (mkExecutor (α := α) (ρ := ρ) none opts) = 1 :=
  ⟨rfl, rfl⟩

/-- C10: setConcurrency performs no validation: for every integer n,
including zero and negative values, it succeeds and a subsequent
getConcurrency returns exactly n. -/
theorem c10_set_get_concurrency (α ρ : Type) (s : ExecutorState α ρ)
    (n : Int) : getConcurrency (setConcurrency s n) = n :=
  rfl

/-- C2: when no run is in progress, executeAllSettled never fails because a
task rejects: it resolves with exactly one tagged outcome per queued task, in
original queue order, fulfilled with the value of the task or rejected with
its failure reason. -/
theorem c2_executeAllSettled_collects_all (α ρ : Type)
    (s : ExecutorState α ρ) (h : s.isRunning = false) :
    ∃ l, (executeAllSettled s).1 = .ok l ∧
      l.length = s.queue.length ∧
      ∀ i t0, s.queue.get? i = some t0 → l.get? i = some (settleTask t0) := by
  refine ⟨promiseAllSettled s.queue, ?_, ?_, ?_⟩
  · simp [executeAllSettled, h]
  · simp [promiseAllSettled]
  · intro i t0 hget
    have hget2 : s.queue[i]? = some t0 := by
      simpa [← List.get?_eq_getElem?] using hget
    simp [promiseAllSettled, List.get?_eq_getElem?, List.getElem?_map, hget2]

/-- Concrete idle executor with one fulfilling and one rejecting task. -/
def c2State : ExecutorState Nat String :=
  { concurrency := 3, options := {},
    queue := [⟨5, .ok 1⟩, ⟨2, .error "x"⟩],
    runningCount := 0, isRunning := false }

/-- C2 witness: the collect-all contract at a concrete two-task queue with
one fulfilling and one rejecting task. -/
theorem c2_witness :
    c2State.isRunning = false ∧
    ∃ l, (executeAllSettled c2State).1 = .ok l ∧
      l.length = c2State.queue.length ∧
      ∀ i t0, c2State.queue.get? i = some t0 →
        l.get? i = some (settleTask t0) :=
  ⟨rfl, c2_executeAllSettled_collects_all Nat String c2State rfl⟩

/-- C8: after any run of executeAll or executeAllSettled that was admitted by
the guard, whether its tasks fulfilled or rejected, the state is reset by
init: the queue is cleared so size returns 0, the in-progress flag is
cleared, and a subsequent run with no newly added tasks returns the empty
result. -/
theorem c8_state_reset (α ρ : Type) (s : ExecutorState α ρ)
    (h : s.isRunning = false) :
    ((executeAll s).2 = init s ∧ (executeAllSettled s).2 = init s) ∧
    (size (executeAll s).2 = 0 ∧ (executeAll s).2.isRunning = false) ∧
    (size (executeAllSettled s).2 = 0 ∧
      (executeAllSettled s).2.isRunning = false) ∧
    (executeAll (executeAll s).2).1 = .ok [] ∧
    (executeAllSettled (executeAll s).2).1 = .ok [] ∧
    (executeAll (executeAllSettled s).2).1 = .ok [] ∧
    (executeAllSettled (executeAllSettled s).2).1 = .ok [] := by
  have h1 : (executeAll s).2 = init s := by
    cases hp : promiseAll s.queue <;> simp [executeAll, h, hp]
  have h2 : (executeAllSettled s).2 = init s := by
    simp [executeAllSettled, h]
  have hrunEmpty : (executeAll (init s)).1 = .ok ([] : List α) := by
    simp [executeAll, init, promiseAll, firstRejection]
  have hsettledEmpty :
      (executeAllSettled (init s)).1 =
        .ok ([] : List (SettledResult α ρ)) := by
    simp [executeAllSettled, init, promiseAllSettled]
  refine ⟨⟨h1, h2⟩, ⟨?_, ?_⟩, ⟨?_, ?_⟩, ?_, ?_, ?_, ?_⟩
  · rw [h1]; simp [size, init]
  · rw [h1]; simp [init]
  · rw [h2]; simp [size, init]
  · rw [h2]; simp [init]
  · rw [h1]; exact hrunEmpty
  · rw [h1]; exact hsettledEmpty
  · rw [h2]; exact hrunEmpty
  · rw [h2]; exact hsettledEmpty

/-- Concrete idle executor whose single task rejects. -/
def c8State : ExecutorState Nat String :=
  { concurrency := 2, options := {},
    queue := [⟨1, .error "boom"⟩],
    runningCount := 0, isRunning := false }

/-- C8 witness: the reset contract at a concrete state whose single task
rejects, exercising the failure path of the run. -/
theorem c8_witness :
    c8State.isRunning = false ∧
    (((executeAll c8State).2 = init c8State ∧
      (executeAllSettled c8State).2 = init c8State) ∧
    (size (executeAll c8State).2 = 0 ∧
      (executeAll c8State).2.isRunning = false) ∧
    (size (executeAllSettled c8State).2 = 0 ∧
      (executeAllSettled c8State).2.isRunning = false) ∧
    (executeAll (executeAll c8State).2).1 = .ok [] ∧
    (executeAllSettled (executeAll c8State).2).1 = .ok [] ∧
    (executeAll (executeAllSettled c8State).2).1 = .ok [] ∧
    (executeAllSettled (executeAllSettled c8State).2).1 = .ok []) :=
  ⟨rfl, c8_state_reset Nat String c8State rfl⟩

/-- Concrete executor with a run in progress and an empty queue. -/
def c5EmptyAddState : ExecutorState Nat String :=
  { concurrency := 1, options := {}, queue := [],
    runningCount := 0, isRunning := true }

/-- Concrete executor with a run in progress and one task queued. -/
def c5RunningState : ExecutorState Nat String :=
  { concurrency := 2, options := {}, queue := [⟨1, .ok 5⟩],
    runningCount := 1, isRunning := true }

/-- C5 counterexample: the claim says calling addAll while a run is in
progress fails with the invalid-state error every time, but calling addAll
with the empty task list while a run is in progress succeeds: the loop body
never executes, so no error is thrown. -/
theorem c5_counterexample :
    c5EmptyAddState.isRunning = true ∧
    addAll c5EmptyAddState [] = .ok c5EmptyAddState :=
  ⟨rfl, rfl⟩

/-- C5 (amended): whenever a run is in progress, add fails with the
invalid-state error, addAll with a nonempty task list fails with the
invalid-state error (with an empty list it performs no adds and succeeds),
and executeAll and executeAllSettled fail with the already-running error,
every time. -/
theorem c5_guard_amended (α ρ : Type) (s : ExecutorState α ρ)
    (h : s.isRunning = true) :
    (∀ t, add s t = .error invalidStateMessage) ∧
    (∀ t ts, addAll s (t :: ts) = .error invalidStateMessage) ∧
    (executeAll s).1 = .error (.state alreadyRunningMessage) ∧
    (executeAllSettled s).1 = .error (.state alreadyRunningMessage) := by
  refine ⟨fun t => by simp [add, h], fun t ts => ?_,
    by simp [executeAll, h], by simp [executeAllSettled, h]⟩
  show List.foldlM add s (t :: ts) = .error invalidStateMessage
  simp only [List.foldlM, add, h, if_pos]
  rfl

/-- C5 witness: the guard contract at a concrete in-progress state. -/
theorem c5_witness :
    c5RunningState.isRunning = true ∧
    ((∀ t, add c5RunningState t = .error invalidStateMessage) ∧
      (∀ t ts, addAll c5RunningState (t :: ts) =
        .error invalidStateMessage) ∧
      (executeAll c5RunningState).1 =
        .error (.state alreadyRunningMessage) ∧
      (executeAllSettled c5RunningState).1 =
        .error (.state alreadyRunningMessage)) :=
  ⟨rfl, c5_guard_amended Nat String c5RunningState rfl⟩

/-- C4: when no run is in progress and every queued task fulfills, executeAll
returns the fulfilled values with positions matching the original queue
order; the result does not depend on the settle times, that is on the order
in which the tasks complete. -/
theorem c4_executeAll_queue_order (α ρ : Type) (s : ExecutorState α ρ)
    (h : s.isRunning = false)
    (hall : ∀ t ∈ s.queue, ∃ v, t.outcome = .ok v) :
    ∃ l, (executeAll s).1 = .ok l ∧
      l.length = s.queue.length ∧
      (∀ i t0 v, s.queue.get? i = some t0 → t0.outcome = .ok v →
        l.get? i = some v) ∧
      ∀ f : Nat → Nat,
        (executeAll { s with
          queue := s.queue.map fun t => ⟨f t.time, t.outcome⟩ }).1 =
          .ok l := by
  have hfr : firstRejection s.queue = none := foldl_rejectionMin_allOk s.queue hall
  obtain ⟨hlen, hget⟩ := filterMap_toOption_spec s.queue hall
  refine ⟨s.queue.filterMap fun t => t.outcome.toOption,
    by simp [executeAll, h, promiseAll, hfr], hlen, hget, ?_⟩
  intro f
  have hall2 : ∀ t2 ∈ s.queue.map
      fun t => (⟨f t.time, t.outcome⟩ : TaskSpec α ρ),
      ∃ v, t2.outcome = .ok v := by
    intro t2 ht2
    rcases List.mem_map.1 ht2 with ⟨t0, ht0, hmap⟩
    obtain ⟨v, hv⟩ := hall t0 ht0
    exact ⟨v, by rw [← hmap]; exact hv⟩
  have hfr2 : firstRejection (s.queue.map
      fun t => (⟨f t.time, t.outcome⟩ : TaskSpec α ρ)) = none :=
    foldl_rejectionMin_allOk _ hall2
  have hfm : ((s.queue.map fun t =>
      (⟨f t.time, t.outcome⟩ : TaskSpec α ρ)).filterMap
        fun t => t.outcome.toOption) =
      s.queue.filterMap fun t => t.outcome.toOption := by
    rw [List.filterMap_map]
    rfl
  simp [executeAll, h, promiseAll, hfr2, hfm]

/-- Concrete idle executor whose tasks all fulfill, the later-queued task
settling earlier in wall-clock time. -/
def c4State : ExecutorState Nat String :=
  { concurrency := 2, options := {},
    queue := [⟨30, .ok 10⟩, ⟨10, .ok 20⟩],
    runningCount := 0, isRunning := false }

/-- C4 witness: the queue-order contract at a concrete all-fulfilling
queue. -/
theorem c4_witness :
    c4State.isRunning = false ∧
    (∀ t ∈ c4State.queue, ∃ v, t.outcome = .ok v) ∧
    ∃ l, (executeAll c4State).1 = .ok l ∧
      l.length = c4State.queue.length ∧
      (∀ i t0 v, c4State.queue.get? i = some t0 → t0.outcome = .ok v →
        l.get? i = some v) ∧
      ∀ f : Nat → Nat,
        (executeAll { c4State with
          queue := c4State.queue.map fun t => ⟨f t.time, t.outcome⟩ }).1 =
          .ok l := by
  have hall : ∀ t ∈ c4State.queue, ∃ v, t.outcome = .ok v := by
    intro t ht
    rcases List.mem_cons.1 ht with heq | ht2
    · exact ⟨10, by rw [heq]⟩
    rcases List.mem_cons.1 ht2 with heq | ht3
    · exact ⟨20, by rw [heq]⟩
    · simp at ht3
  exact ⟨rfl, hall, c4_executeAll_queue_order Nat String c4State rfl hall⟩

/-- C3: when no run is in progress and at least one queued task rejects,
executeAll fails with the rejection reason of a rejecting task whose settle
time is smallest in wall-clock time, not the first rejecting task in queue
order; and active tasks are never cancelled: even after the teardown, the
gate still allows every active task to run to completion, its outcome absent
from the returned result. -/
theorem c3_executeAll_first_rejection (α ρ : Type) (s : ExecutorState α ρ)
    (h : s.isRunning = false)
    (hrej : ∃ t ∈ s.queue, ∃ r, t.outcome = .error r) :
    (∃ tm r, (executeAll s).1 = .error (.task r) ∧
      (∃ t ∈ s.queue, t.time = tm ∧ t.outcome = .error r) ∧
      (∀ t ∈ s.queue, ∀ r2, t.outcome = .error r2 → tm ≤ t.time)) ∧
    (∀ gs : GateState, ∀ i, gs.tornDown = true →
      gs.phases.get? i = some .active →
      GateStep gs { gs with phases := gs.phases.set i .settled,
                            running := gs.running - 1 }) := by
  obtain ⟨tm, r, hfr, hmem, hmin⟩ := firstRejection_spec s.queue hrej
  refine ⟨⟨tm, r, ?_, hmem, hmin⟩, ?_⟩
  · simp [executeAll, h, promiseAll, hfr]
  · intro gs i _ hact
    exact GateStep.finish gs i hact

/-- Concrete idle executor with two rejecting tasks, the later-queued one
settling earlier, and one fulfilling task. -/
def c3State : ExecutorState Nat String :=
  { concurrency := 2, options := {},
    queue := [⟨10, .error "late"⟩, ⟨5, .error "early"⟩, ⟨1, .ok 7⟩],
    runningCount := 0, isRunning := false }

/-- C3 witness: the fail-fast contract at a concrete queue where the second
rejection settles before the first in wall-clock time; executeAll surfaces
the reason of the earlier-settling rejection. -/
theorem c3_witness :
    c3State.isRunning = false ∧
    (∃ t ∈ c3State.queue, ∃ r, t.outcome = .error r) ∧
    (executeAll c3State).1 = .error (.task "early") ∧
    ((∃ tm r, (executeAll c3State).1 = .error (.task r) ∧
      (∃ t ∈ c3State.queue, t.time = tm ∧ t.outcome = .error r) ∧
      (∀ t ∈ c3State.queue, ∀ r2, t.outcome = .error r2 → tm ≤ t.time)) ∧
    (∀ gs : GateState, ∀ i, gs.tornDown = true →
      gs.phases.get? i = some .active →
      GateStep gs { gs with phases := gs.phases.set i .settled,
                            running := gs.running - 1 })) := by
  have hrej : ∃ t ∈ c3State.queue, ∃ r, t.outcome = .error r :=
    ⟨⟨10, .error "late"⟩, by simp [c3State], "late", rfl⟩
  exact ⟨rfl, hrej, rfl,
    c3_executeAll_first_rejection Nat String c3State rfl hrej⟩

/-- Concrete executor with a run in progress and no auto-execute
configuration. -/
def c6RunningState : ExecutorState Nat String :=
  { concurrency := 1, options := {}, queue := [],
    runningCount := 0, isRunning := true }

/-- Concrete auto-execute configuration triggering the collect-all strategy
as soon as one task is queued. -/
def c6Auto : AutoExecuteOption := ⟨.allSettled, 1⟩

/-- Concrete task appended in the C6 witness. -/
def c6Task : TaskSpec Nat String := ⟨2, .ok 9⟩

/-- Concrete executor with a run in progress and an auto-execute
configuration whose threshold is met by one append. -/
def c6TriggerState : ExecutorState Nat String :=
  { concurrency := 1,
    options := { interval := none, autoExecute := some c6Auto },
    queue := [], runningCount := 0, isRunning := true }

/-- C6 counterexample: the claim says addWithAutoExecute fails at append
time, exactly as add, when a run is already in progress; but on a concrete
in-progress state add throws the invalid-state error while addWithAutoExecute
succeeds and appends the task, because it performs no running-state check
before pushing. -/
theorem c6_counterexample :
    c6RunningState.isRunning = true ∧
    add c6RunningState ⟨1, .ok 0⟩ = .error invalidStateMessage ∧
    addWithAutoExecute c6RunningState ⟨1, .ok 0⟩ none =
      (.ok (), { c6RunningState with queue := [⟨1, .ok 0⟩] }) :=
  ⟨rfl, rfl, rfl⟩

/-- C6 (amended): addWithAutoExecute performs no running-state check at
append time: it always appends the task, even while a run is in progress.
Then, if the effective auto-execute configuration is present and its
threshold is at most the new queue length, it invokes the configured run
strategy and awaits it, forwarding its outcome: while a run is in progress
that triggered run fails with the already-running error and the appended
task stays queued; otherwise the triggered run executes and resets the
state. Without a met threshold it returns successfully having only
appended. -/
theorem c6_append_then_trigger (α ρ : Type) (s : ExecutorState α ρ)
    (t : TaskSpec α ρ) (opts : Option ExecutorOption) :
    (effectiveAuto opts s = none →
      addWithAutoExecute s t opts =
        (.ok (), { s with queue := s.queue ++ [t] })) ∧
    (∀ a, effectiveAuto opts s = some a →
      ¬ a.triggerThreshold ≤ ((s.queue ++ [t]).length : Int) →
      addWithAutoExecute s t opts =
        (.ok (), { s with queue := s.queue ++ [t] })) ∧
    (∀ a, effectiveAuto opts s = some a →
      a.triggerThreshold ≤ ((s.queue ++ [t]).length : Int) →
      s.isRunning = true →
      addWithAutoExecute s t opts =
        (.error (.state alreadyRunningMessage),
          { s with queue := s.queue ++ [t] })) ∧
    (∀ a, effectiveAuto opts s = some a →
      a.triggerThreshold ≤ ((s.queue ++ [t]).length : Int) →
      s.isRunning = false →
      (addWithAutoExecute s t opts).2 = init s ∧
      (a.type = .allSettled →
        (addWithAutoExecute s t opts).1 = .ok ())) := by
  refine ⟨?_, ?_, ?_, ?_⟩
  · intro h0
    simp [addWithAutoExecute, h0]
  · intro a ha hnot
    simp only [addWithAutoExecute, ha]
    rw [if_neg hnot]
  · intro a ha hth hrun
    have hth2 : a.triggerThreshold ≤ (s.queue.length : Int) + 1 := by
      simpa using hth
    cases htype : a.type <;>
      simp [addWithAutoExecute, ha, hth2, htype, executeAll,
        executeAllSettled, hrun, Except.map]
  · intro a ha hth hrun
    have hth2 : a.triggerThreshold ≤ (s.queue.length : Int) + 1 := by
      simpa using hth
    constructor
    · cases htype : a.type
      · cases hp : promiseAll (s.queue ++ [t]) <;>
          simp [addWithAutoExecute, ha, hth2, htype, executeAll, hrun, hp,
            init, Except.map]
      · simp [addWithAutoExecute, ha, hth2, htype, executeAllSettled, hrun,
          init, Except.map]
    · intro htype
      simp [addWithAutoExecute, ha, hth2, htype, executeAllSettled, hrun,
        Except.map]

/-- C6 witness: the amended contract at a concrete in-progress state whose
auto-execute threshold is met: the task is appended and the triggered run
fails with the already-running error. -/
theorem c6_witness :
    effectiveAuto none c6TriggerState = some c6Auto ∧
    c6Auto.triggerThreshold ≤
      ((c6TriggerState.queue ++ [c6Task]).length : Int) ∧
    c6TriggerState.isRunning = true ∧
    addWithAutoExecute c6TriggerState c6Task none =
      (.error (.state alreadyRunningMessage),
        { c6TriggerState with
          queue := c6TriggerState.queue ++ [c6Task] }) :=
  ⟨rfl, by decide, rfl,
    (c6_append_then_trigger Nat String c6TriggerState c6Task
      none).2.2.1 c6Auto rfl (by decide) rfl⟩

/-- C1: for every limit N at least 1 and every task count M, in every state
reached during a run of executeAll or executeAllSettled (a run lasts until
the state reset of its teardown) at most N tasks execute simultaneously, the
running count equals the number of executing tasks, and the check of the
count against the limit and its increment form one atomic step: any step
that raises the running count raises it by exactly one and saw the count
strictly below the limit inside that same step, leaving it at most N. -/
theorem c1_concurrency_bounded (N : Int) (M : Nat) (s : GateState)
    (hN : 1 ≤ N) (hreach : GateReach N M s) (hrun : s.tornDown = false) :
    (activeCount s.phases : Int) ≤ N ∧
    s.running = (activeCount s.phases : Int) ∧
    ∀ u, GateStep s u → u.running ≤ s.running + 1 ∧
      (u.running = s.running + 1 → s.running < N ∧ u.running ≤ N) := by
  have hinv := gateInv_reach N M s (by omega) hreach
  obtain ⟨hlim, hrunInv⟩ := hinv
  obtain ⟨heq, hle⟩ := hrunInv hrun
  have hnonneg : (0 : Int) ≤ s.running := by
    rw [heq]
    exact_mod_cast Nat.zero_le _
  refine ⟨by omega, heq, ?_⟩
  intro u hstep
  cases hstep with
  | poll i hp hlt =>
    have hltN : s.running < N := hlim ▸ hlt
    constructor
    · show s.running + 1 ≤ s.running + 1
      omega
    · intro _
      constructor
      · exact hltN
      · show s.running + 1 ≤ N
        omega
  | finish i ha =>
    constructor
    · show s.running - 1 ≤ s.running + 1
      omega
    · show s.running - 1 = s.running + 1 → _
      omega
  | teardown htd hex =>
    constructor
    · show (0 : Int) ≤ s.running + 1
      omega
    · show (0 : Int) = s.running + 1 → _
      omega

/-- C1 witness: the bound at the initial state of a run with limit 1 and two
tasks, reached by the empty step sequence. -/
theorem c1_witness :
    (1 : Int) ≤ 1 ∧ (initGate 1 2).tornDown = false ∧
    ((activeCount (initGate 1 2).phases : Int) ≤ 1 ∧
      (initGate 1 2).running = (activeCount (initGate 1 2).phases : Int) ∧
      ∀ u, GateStep (initGate 1 2) u →
        u.running ≤ (initGate 1 2).running + 1 ∧
        (u.running = (initGate 1 2).running + 1 →
          (initGate 1 2).running < 1 ∧ u.running ≤ 1)) :=
  ⟨by decide, rfl,
    c1_concurrency_bounded 1 2 (initGate 1 2) (by decide)
      Relation.ReflTransGen.refl rfl⟩

/-- Gate state left behind after a fail-fast teardown once the draining
sibling has also settled: the running count is negative. -/
def c7BadState : GateState :=
  { limit := 2, running := -1, phases := [.settled, .settled],
    tornDown := true }

/-- C7 counterexample: the claim asserts 0 ≤ runningCount at all times across
every operation, including fail-fast teardown while sibling tasks are still
draining; but with limit 2 and two tasks, after both are admitted, the first
settles, the fail-fast teardown resets the count to 0 while the second is
still active, and the release of the second then drives the count to -1,
which is negative. -/
theorem c7_counterexample :
    GateReach 2 2 c7BadState ∧ ¬ (0 ≤ c7BadState.running) := by
  constructor
  · have h1 : GateStep (initGate 2 2)
        { limit := 2, running := 1, phases := [.active, .pending],
          tornDown := false } :=
      GateStep.poll _ 0 rfl (by decide)
    have h2 : GateStep
        { limit := 2, running := 1, phases := [.active, .pending],
          tornDown := false }
        { limit := 2, running := 2, phases := [.active, .active],
          tornDown := false } :=
      GateStep.poll _ 1 rfl (by decide)
    have h3 : GateStep
        { limit := 2, running := 2, phases := [.active, .active],
          tornDown := false }
        { limit := 2, running := 1, phases := [.settled, .active],
          tornDown := false } :=
      GateStep.finish _ 0 rfl
    have h4 : GateStep
        { limit := 2, running := 1, phases := [.settled, .active],
          tornDown := false }
        { limit := 2, running := 0, phases := [.settled, .active],
          tornDown := true } :=
      GateStep.teardown _ rfl ⟨0, rfl⟩
    have h5 : GateStep
        { limit := 2, running := 0, phases := [.settled, .active],
          tornDown := true }
        { limit := 2, running := -1, phases := [.settled, .settled],
          tornDown := true } :=
      GateStep.finish _ 1 rfl
    exact Relation.ReflTransGen.tail
      (Relation.ReflTransGen.tail
        (Relation.ReflTransGen.tail
          (Relation.ReflTransGen.tail
            (Relation.ReflTransGen.single h1) h2) h3) h4) h5
  · decide

/-- C7 (amended): in every state reached during a run and before its
teardown, the running count satisfies 0 ≤ runningCount ≤ limit; the bound
does not survive a fail-fast teardown with siblings still draining, where
each sibling release drives the already-reset count below zero. -/
theorem c7_running_count_bounds (N : Int) (M : Nat) (s : GateState)
    (hN : 0 ≤ N) (hreach : GateReach N M s) (hrun : s.tornDown = false) :
    0 ≤ s.running ∧ s.running ≤ N := by
  have hinv := gateInv_reach N M s hN hreach
  obtain ⟨heq, hle⟩ := hinv.2 hrun
  refine ⟨?_, hle⟩
  rw [heq]
  exact_mod_cast Nat.zero_le _

/-- C7 witness: the bounds at the initial state of a run with limit 3 and
one task, reached by the empty step sequence. -/
theorem c7_witness :
    (0 : Int) ≤ 3 ∧ (initGate 3 1).tornDown = false ∧
    (0 ≤ (initGate 3 1).running ∧ (initGate 3 1).running ≤ 3) :=
  ⟨by decide, rfl,
    c7_running_count_bounds 3 1 (initGate 3 1) (by decide)
      Relation.ReflTransGen.refl rfl⟩

end PCE
